import Mathlib

/-!
Verification of the `deet` debugger core
(`src/proj-1/deet/src/inferior.rs`, `src/proj-1/deet/src/debugger.rs`).

The Rust source is shallowly embedded: machine words are `Nat` values kept
below `2 ^ 64`, the traced child's memory is a word-indexed map from aligned
addresses to word values, and all OS interactions (ptrace syscalls, waitpid,
spawn) are driven by explicit oracle parameters that stand for the outcome
the kernel would report.  Fallible operations return `Except`/`Option`;
a Rust `panic!`/`.expect(..)` is modelled as a distinguished error value.
-/

namespace Deet

/-- `align_addr_to_word` from inferior.rs:128-130:
`addr & (-(size_of::<usize>() as isize) as usize)`.
On a 64-bit target `-(8 : isize) as usize = 2 ^ 64 - 8`. -/
def align_addr_to_word (addr : Nat) : Nat := addr &&& (2 ^ 64 - 8)

/-- 64-bit bitwise complement, modelling Rust `!x` on `u64`
(for `x < 2 ^ 64`, xor with the all-ones word is exactly `!x`). -/
def complement64 (x : Nat) : Nat := (2 ^ 64 - 1) ^^^ x

/-- The byte of word `w` at byte offset `i` (little-endian, as the x86-64
word read by `ptrace::read` is laid out): `(w >> 8*i) & 0xff`. -/
def getByte (w i : Nat) : Nat := (w >>> (8 * i)) &&& 0xff

/-- The signals the debugger can observe (from `nix::sys::signal::Signal`). -/
inductive Signal
  | sigtrap
  | sigsegv
  | sigint
  | sigkill
deriving DecidableEq

/-- A low-level `nix::Error` from a ptrace/waitpid syscall. -/
inductive NixError
  | ptraceError
  | waitError
deriving DecidableEq

/-- `Status` from inferior.rs:12-23. -/
inductive Status
  | stopped (sig : Signal) (rip : Nat)
  | exited (code : Int)
  | signaled (sig : Signal)
deriving DecidableEq

/-- OS-level state of the traced child process: scheduled/running, stopped by
a signal under ptrace, dead but not yet reaped (zombie), or reaped by a wait
call.  This models kernel process-table bookkeeping, not source code. -/
inductive ProcStatus
  | running
  | stoppedBySignal
  | zombie
  | reaped
deriving DecidableEq

/-- The traced child: its memory (a word value for every aligned address) and
its OS process status. -/
structure Child where
  mem : Nat → Nat
  osStatus : ProcStatus

/-- `Inferior` from inferior.rs:34-36: owns the child. -/
structure Inferior where
  child : Child

/-- The registers returned by `ptrace::getregs` that the debugger uses. -/
structure Regs where
  rip : Nat
  rbp : Nat
deriving DecidableEq

/-- `nix::sys::wait::WaitStatus`, restricted to the constructors the source
matches on (everything else is the `panic!` arm). -/
inductive WaitStatus
  | exited (pid : Nat) (code : Int)
  | signaled (pid : Nat) (sig : Signal) (coreDumped : Bool)
  | stopped (pid : Nat) (sig : Signal)
  | otherStatus
deriving DecidableEq

/-- Outcome of `Inferior::wait`: a propagated `nix::Error`, or the `panic!`
arm for an unexpected wait status. -/
inductive WaitError
  | nix (e : NixError)
  | panicked
deriving DecidableEq

/-- `Inferior::wait` from inferior.rs:66-76.  The raw `waitpid` outcome and
the `getregs` outcome are oracle inputs (what the kernel reports);
the function decodes them exactly as the source `match` does. -/
def Inferior.wait (waitpidResult : Except NixError WaitStatus)
    (getregs : Except NixError Regs) : Except WaitError Status :=
  match waitpidResult with
  | .error e => .error (.nix e)
  | .ok (.exited _pid code) => .ok (.exited code)
  | .ok (.signaled _pid sig _coreDumped) => .ok (.signaled sig)
  | .ok (.stopped _pid sig) =>
    match getregs with
    | .error e => .error (.nix e)
    | .ok regs => .ok (.stopped sig regs.rip)
  | .ok .otherStatus => .error .panicked

/-- `Inferior::write_byte` from inferior.rs:112-125.  `writeOk addr` is the
oracle for whether the ptrace read/write round trip at `addr` succeeds. -/
def Inferior.write_byte (writeOk : Nat → Bool) (i : Inferior)
    (addr val : Nat) : Except NixError (Nat × Inferior) :=
  if writeOk addr then
    let aligned_addr := align_addr_to_word addr
    let byte_offset := addr - aligned_addr
    let word := i.child.mem aligned_addr
    let orig_byte := (word >>> (8 * byte_offset)) &&& 0xff
    let masked_word := word &&& complement64 (0xff <<< (8 * byte_offset))
    let updated_word := masked_word ||| (val <<< (8 * byte_offset))
    .ok (orig_byte,
      { child :=
        { mem := fun a => if a = aligned_addr then updated_word else i.child.mem a,
          osStatus := i.child.osStatus } })
  else
    .error .ptraceError

/-- The breakpoint-patching loop shared by `Inferior::new` (inferior.rs:49-53)
and `Inferior::continue_run` (inferior.rs:79-83): for each pending address,
`write_byte(addr, 0xcc)`; an `Err` is printed and ignored, and the returned
original byte is discarded in both callers. -/
def installAll (writeOk : Nat → Bool) (i : Inferior) (break_points : List Nat) :
    Inferior :=
  break_points.foldl (fun acc bp =>
    match Inferior.write_byte writeOk acc bp 0xcc with
    | .ok (_orig, acc2) => acc2
    | .error _e => acc) i

/-- Kernel-side effect of a `waitpid` call on the child's process-table entry:
observing a death status (`Exited`/`Signaled`) reaps the child; observing a
stop leaves it stopped; an error or unexpected status changes nothing.
This models OS semantics, not source code. -/
def updateOS (i : Inferior) (waitpidResult : Except NixError WaitStatus) :
    Inferior :=
  match waitpidResult with
  | .ok (.exited _ _) => { child := { mem := i.child.mem, osStatus := .reaped } }
  | .ok (.signaled _ _ _) => { child := { mem := i.child.mem, osStatus := .reaped } }
  | .ok (.stopped _ _) => { child := { mem := i.child.mem, osStatus := .stoppedBySignal } }
  | _ => i

/-- `Inferior::new` from inferior.rs:41-57.  `spawnResult` is the oracle for
`command.spawn()` (`none` = spawn error, taking the early `?` return before
the patch loop, so `break_points` is returned untouched); on success the
patch loop runs, the vector is cleared, and the initial `wait(None).ok()?`
decides whether `Some` is returned. -/
def Inferior.new (spawnResult : Option Child) (writeOk : Nat → Bool)
    (waitpidResult : Except NixError WaitStatus) (getregs : Except NixError Regs)
    (break_points : List Nat) : Option Inferior × List Nat :=
  match spawnResult with
  | none => (none, break_points)
  | some c =>
    let inf := installAll writeOk { child := c } break_points
    match Inferior.wait waitpidResult getregs with
    | .error _ => (none, [])
    | .ok _ => (some (updateOS inf waitpidResult), [])

/-- `Inferior::continue_run` from inferior.rs:78-87: patch every pending
breakpoint, clear the vector, `ptrace::cont` (oracle `contOk`; failure takes
the `?` return after the clear), then `wait`. -/
def Inferior.continue_run (writeOk : Nat → Bool) (contOk : Bool)
    (waitpidResult : Except NixError WaitStatus) (getregs : Except NixError Regs)
    (i : Inferior) (break_points : List Nat) :
    Inferior × List Nat × Except WaitError Status :=
  let i1 := installAll writeOk i break_points
  if contOk then
    (updateOS i1 waitpidResult, [], Inferior.wait waitpidResult getregs)
  else
    (i1, [], .error (.nix .ptraceError))

/-- Effect of `kill(pid, SIGKILL)` on the child's process-table entry:
a running or stopped process dies and becomes a zombie awaiting a reaping
wait; a zombie is unaffected; a reaped pid yields ESRCH (error logged by the
caller, no state change).  Models OS semantics of the signal. -/
def sigkill : ProcStatus → ProcStatus
  | .running => .zombie
  | .stoppedBySignal => .zombie
  | .zombie => .zombie
  | .reaped => .reaped

/-- `Inferior::kill` from inferior.rs:89-94: `Child::kill` sends SIGKILL and
logs any error; the source never calls `waitpid` afterwards, so the child is
not reaped here. -/
def Inferior.kill (i : Inferior) : Inferior :=
  { child := { mem := i.child.mem, osStatus := sigkill i.child.osStatus } }

/-- Modelled from the spec: the external "symbol resolver" collaborator
(`DwarfData` from the starter crate, not under src/): fallible
function-name-at-address and source-line-at-address lookups
(spec 2: "address → function name, address → source line; both lookups
fallible"). -/
structure DwarfData where
  get_function_from_addr : Nat → Option String
  get_line_from_addr : Nat → Option String

/-- The stop-location report in the `Run` arm, debugger.rs:70-73:
both lookups go through `.expect("wrong addr")`, which panics when the lookup
returns `None`; the panic is modelled as `.error "wrong addr"`. -/
def reportStopLocation (dd : DwarfData) (rip : Nat) :
    Except String (String × String) :=
  match dd.get_function_from_addr rip with
  | none => .error "wrong addr"
  | some fn =>
    match dd.get_line_from_addr rip with
    | none => .error "wrong addr"
    | some line => .ok (fn, line)

/-- How a backtrace walk ends: reached `main` (or the `if let` fell through),
a `ptrace::read` failed (the `?` return, frames so far already printed),
a `.expect` panicked, or the fuel bound of the embedding was hit. -/
inductive BtOutcome
  | finished
  | readError
  | panicked (msg : String)
  | fuelOut
deriving DecidableEq

/-- The `loop` inside `Inferior::print_backtrace`, inferior.rs:100-107:
resolve the function name and source line through `.expect("wrong addr")`
(panic on `None`), print the frame, stop after `main`, otherwise follow the
frame-pointer chain via two `ptrace::read`s (`readMem` oracle; `none` is a
read error propagated by `?`).  `fuel` bounds the unbounded source loop. -/
def btLoop (dd : DwarfData) (readMem : Nat → Option Nat) :
    Nat → Nat → Nat → List (String × String) × BtOutcome
  | 0, _, _ => ([], .fuelOut)
  | fuel + 1, instruction_ptr, base_ptr =>
    match dd.get_function_from_addr instruction_ptr with
    | none => ([], .panicked "wrong addr")
    | some function_name =>
      match dd.get_line_from_addr instruction_ptr with
      | none => ([], .panicked "wrong addr")
      | some path_name =>
        if function_name = "main" then ([(function_name, path_name)], .finished)
        else
          match readMem (base_ptr + 8) with
          | none => ([(function_name, path_name)], .readError)
          | some ip2 =>
            match readMem base_ptr with
            | none => ([(function_name, path_name)], .readError)
            | some bp2 =>
              let rest := btLoop dd readMem fuel ip2 bp2
              ((function_name, path_name) :: rest.1, rest.2)

/-- `Inferior::print_backtrace` from inferior.rs:96-110: on a `getregs`
error the `if let Ok` falls through and `Ok(())` is returned with no frames;
otherwise the walk starts at `rip`/`rbp`. -/
def print_backtrace (dd : DwarfData) (readMem : Nat → Option Nat)
    (getregs : Except NixError Regs) (fuel : Nat) :
    List (String × String) × BtOutcome :=
  match getregs with
  | .error _ => ([], .finished)
  | .ok regs => btLoop dd readMem fuel regs.rip regs.rbp

/-- `char::to_digit(16)` as used by `usize::from_str_radix(_, 16)`. -/
def hexDigitVal (c : Char) : Option Nat :=
  if '0' ≤ c ∧ c ≤ '9' then some (c.toNat - '0'.toNat)
  else if 'a' ≤ c ∧ c ≤ 'f' then some (c.toNat - 'a'.toNat + 10)
  else if 'A' ≤ c ∧ c ≤ 'F' then some (c.toNat - 'A'.toNat + 10)
  else none

/-- One step of the non-negative accumulation in `from_str_radix`:
`checked_mul` by 16 then `checked_add` of the digit; for `Nat` values this
combines into the single bound `acc * 16 + d < 2 ^ 64`. -/
def hexStepChecked (acc : Nat) (c : Char) : Option Nat :=
  match hexDigitVal c with
  | none => none
  | some d => if acc * 16 + d < 2 ^ 64 then some (acc * 16 + d) else none

/-- `usize::from_str_radix(s, 16)` (64-bit `usize`), on the string's
characters: optional leading `+`/`-` sign, then a non-empty digit string;
with a `-` sign an unsigned parse succeeds only while `checked_sub` stays at
zero, i.e. every digit is `0`. -/
def from_str_radix_16 (s : List Char) : Option Nat :=
  match s with
  | [] => none
  | c :: rest =>
    let signAndDigits : Bool × List Char :=
      if c = '+' then (false, rest)
      else if c = '-' then (true, rest)
      else (false, c :: rest)
    match signAndDigits with
    | (_, []) => none
    | (neg, digits) =>
      if neg then
        if digits.all (fun d => d == '0') then some 0 else none
      else
        digits.foldlM hexStepChecked 0

/-- `parse_address` from debugger.rs:164-171, on the token's characters:
`addr.to_lowercase().starts_with("0x")` holds exactly when the first two
characters are `0` then `x`/`X` (no other character lowercases to `0` or
`x`), and then `&addr[2..]` drops those two ASCII bytes; the remainder is
parsed as hex. -/
def parse_address (addr : List Char) : Option Nat :=
  let addr_without_0x :=
    match addr with
    | '0' :: 'x' :: rest => rest
    | '0' :: 'X' :: rest => rest
    | cs => cs
  from_str_radix_16 addr_without_0x

/-- The mutable session state of `Debugger` (debugger.rs:8-15) that commands
can change: the held inferior and the pending breakpoint vector.
(`target`, `history_path`, `readline` and `debug_data` are never written
after construction.) -/
structure DState where
  inferior : Option Inferior
  breakpoints : List Nat

/-- The session state right after `Debugger::new`: no inferior,
empty breakpoint vector (debugger.rs:41-43). -/
def initState : DState := { inferior := none, breakpoints := [] }

/-- The `Break` arm of `Debugger::run`, debugger.rs:111-117: reject a token
whose first character is not `*`, otherwise parse the rest — and then
**discard** the parsed address (the source binds it to an unused local and
never stores it).  The payload of `DebuggerCommand::Break` is modelled from
the spec as the single address token after `break` (spec 6: command surface
`break *<hex-address>`, whitespace-tokenized); the source's `addr[0] != "*"`
is its first-character test.  Returns the new state and printed lines. -/
def stepBreak (st : DState) (tok : String) : DState × List String :=
  match tok.toList with
  | '*' :: rest =>
    let _addr := parse_address rest
    (st, [])
  | _ => (st, ["wrong address format"])

/-- The accept/reject behavior of the breakpoint address syntax implemented
by the `Break` arm plus `parse_address`: leading `*`, then the hex payload. -/
def breakParse (tok : String) : Option Nat :=
  match tok.toList with
  | '*' :: rest => parse_address rest
  | _ => none

/-- Rendering of a signal name for the `println!("... (signal {})", signal)`
messages. -/
def sigName : Signal → String
  | .sigtrap => "SIGTRAP"
  | .sigsegv => "SIGSEGV"
  | .sigint => "SIGINT"
  | .sigkill => "SIGKILL"

/-- The message/panic behavior of the `match` on `continue_run`'s result in
the `Run` arm, debugger.rs:59-78.  The Bool is true when the `Stopped` arm's
`.expect("wrong addr")` panics (lookup returned `None`); the
"Child stopped" line is printed before the panic. -/
def runMessages (dd : DwarfData) (res : Except WaitError Status) :
    List String × Bool :=
  match res with
  | .ok (.exited num) => (["Child exited (status " ++ toString num ++ ")"], false)
  | .ok (.signaled sig) => (["Child signaled (signal " ++ sigName sig ++ ")"], false)
  | .ok (.stopped sig rip) =>
    match reportStopLocation dd rip with
    | .ok (fn, line) =>
      (["Child stopped (signal " ++ sigName sig ++ ")",
        "Stopped at " ++ fn ++ " " ++ line], false)
    | .error _msg => (["Child stopped (signal " ++ sigName sig ++ ")"], true)
  | .error _e => (["trace error"], false)

/-- The `Run` arm of `Debugger::run`, debugger.rs:50-81, composed with the
inferior.rs signatures (`Inferior::new`/`continue_run` take the shared
`&mut self.breakpoints`): kill any held inferior (the `inferior` field itself
is not overwritten), spawn, and on success store the new inferior and resume
once; on `None` from `Inferior::new` print "Error starting subprocess" and
leave the `inferior` field as it was.  Returns (state, printed lines,
panicked?). -/
def stepRun (spawnResult : Option Child) (writeOk : Nat → Bool)
    (initWaitpid : Except NixError WaitStatus) (initGetregs : Except NixError Regs)
    (contOk : Bool) (waitpidResult : Except NixError WaitStatus)
    (getregs : Except NixError Regs) (dd : DwarfData) (st : DState) :
    DState × List String × Bool :=
  let st0 : DState :=
    match st.inferior with
    | some i => { inferior := some (Inferior.kill i), breakpoints := st.breakpoints }
    | none => st
  match Inferior.new spawnResult writeOk initWaitpid initGetregs st0.breakpoints with
  | (some i, bps1) =>
    let r := Inferior.continue_run writeOk contOk waitpidResult getregs i bps1
    let msgs := runMessages dd r.2.2
    ({ inferior := some r.1, breakpoints := r.2.1 }, msgs.1, msgs.2)
  | (none, bps1) =>
    ({ inferior := st0.inferior, breakpoints := bps1 },
      ["Error starting subprocess"], false)

/-- The `Continue` arm of `Debugger::run`, debugger.rs:89-105: with no held
inferior print "No process running." and change nothing; otherwise
`continue_run` on the shared breakpoint vector, printing only the
`Exited` message or the error. -/
def stepContinue (writeOk : Nat → Bool) (contOk : Bool)
    (waitpidResult : Except NixError WaitStatus) (getregs : Except NixError Regs)
    (st : DState) : DState × List String :=
  match st.inferior with
  | none => (st, ["No process running."])
  | some i =>
    let r := Inferior.continue_run writeOk contOk waitpidResult getregs i st.breakpoints
    let msgs :=
      match r.2.2 with
      | .ok (.exited num) => ["Continue: Child exited (status " ++ toString num ++ ")"]
      | .ok _ => []
      | .error _ => ["trace error"]
    ({ inferior := some r.1, breakpoints := r.2.1 }, msgs)

/-- The `Quit` arm of `Debugger::run`, debugger.rs:83-88: kill any held
inferior (no `waitpid` afterwards), then return. -/
def stepQuit (st : DState) : DState :=
  match st.inferior with
  | some i => { inferior := some (Inferior.kill i), breakpoints := st.breakpoints }
  | none => st

/-! Concrete children, registers and symbol tables used to evaluate the
model at specific inputs. -/

/-- A freshly spawned child whose memory words are all zero. -/
def child0 : Child := { mem := fun _ => 0, osStatus := .running }

/-- A child whose memory words all hold a fixed non-trivial pattern. -/
def child1 : Child := { mem := fun _ => 0x1122334455667788, osStatus := .stoppedBySignal }

/-- An inferior holding `child1`. -/
def inf1 : Inferior := { child := child1 }

/-- A symbol table that resolves every address. -/
def ddAll : DwarfData :=
  { get_function_from_addr := fun _ => some "main",
    get_line_from_addr := fun _ => some "sample.c:1" }

/-- A symbol table that resolves no address (e.g. the child is stopped inside
library code outside every known debug range). -/
def ddNone : DwarfData :=
  { get_function_from_addr := fun _ => none,
    get_line_from_addr := fun _ => none }

/-- A concrete register file. -/
def regs0 : Regs := { rip := 0x1234, rbp := 0x7000 }

/-- A `waitpid` outcome: the child stopped with SIGTRAP. -/
def wsTrap : Except NixError WaitStatus := .ok (.stopped 1 .sigtrap)

/-! ### Bit-level helper lemmas -/

theorem testBit_255 (j : Nat) : (0xff : Nat).testBit j = decide (j < 8) := by
  have h : (0xff : Nat) = 2 ^ 8 - 1 := by norm_num
  rw [h, Nat.testBit_two_pow_sub_one]

theorem testBit_allOnes64 (j : Nat) :
    ((2 ^ 64 - 1 : Nat)).testBit j = decide (j < 64) :=
  Nat.testBit_two_pow_sub_one 64 j

theorem testBit_getByte (w i j : Nat) :
    (getByte w i).testBit j = (w.testBit (8 * i + j) && decide (j < 8)) := by
  simp only [getByte, Nat.testBit_land, Nat.testBit_shiftRight, testBit_255]

theorem testBit_of_lt_of_le {x m j : Nat} (hx : x < 2 ^ m) (hj : m ≤ j) :
    x.testBit j = false :=
  Nat.testBit_lt_two_pow
    (lt_of_lt_of_le hx (Nat.pow_le_pow_right (by norm_num) hj))

/-- On 64-bit inputs, `align_addr_to_word` is rounding down to
a multiple of 8. -/
theorem align_eq_div_mul (addr : Nat) (h : addr < 2 ^ 64) :
    align_addr_to_word addr = 8 * (addr / 8) := by
  have h9 : 8 * (addr / 8) = (addr >>> 3) <<< 3 := by
    rw [Nat.shiftRight_eq_div_pow, Nat.shiftLeft_eq]
    norm_num [Nat.mul_comm]
  have h8 : (2 ^ 64 - 8 : Nat) = (2 ^ 61 - 1) <<< 3 := by
    norm_num [Nat.shiftLeft_eq]
  apply Nat.eq_of_testBit_eq
  intro i
  rw [align_addr_to_word, h8, h9]
  simp only [Nat.testBit_land, Nat.testBit_shiftLeft, Nat.testBit_shiftRight,
    Nat.testBit_two_pow_sub_one, ge_iff_le]
  by_cases hi3 : 3 ≤ i
  · have hsum : 3 + (i - 3) = i := by omega
    rw [hsum]
    by_cases hi64 : i < 64
    · simp [hi3, show i - 3 < 61 by omega]
    · have hbit : addr.testBit i = false := testBit_of_lt_of_le h (by omega)
      simp [hi3, hbit]
  · simp [hi3]

/-- Bit `j` of the word produced by the mask-and-splice arithmetic of
`write_byte`: inside the target byte it comes from `val`, outside it is the
old word bit (truncated to 64 bits). -/
theorem testBit_spliced (w off val j : Nat) (hoff : off < 8) (hval : val < 2 ^ 8) :
    ((w &&& complement64 (0xff <<< (8 * off))) ||| (val <<< (8 * off))).testBit j
      = if 8 * off ≤ j ∧ j < 8 * off + 8 then val.testBit (j - 8 * off)
        else (w.testBit j && decide (j < 64)) := by
  simp only [complement64, Nat.testBit_lor, Nat.testBit_land,
    Nat.testBit_xor, Nat.testBit_shiftLeft, testBit_255, testBit_allOnes64,
    ge_iff_le]
  by_cases h1 : 8 * off ≤ j
  · by_cases h2 : j < 8 * off + 8
    · have hj64 : j < 64 := by omega
      simp [h1, h2, hj64, show j - 8 * off < 8 by omega]
    · have hvbit : val.testBit (j - 8 * off) = false :=
        testBit_of_lt_of_le hval (by omega)
      simp [h1, h2, hvbit, show ¬(j - 8 * off < 8) by omega]
  · have hj64 : j < 64 := by omega
    simp [h1, hj64, show ¬(8 * off ≤ j ∧ j < 8 * off + 8) by omega]

/-- After the splice, the byte at the patched offset is `val`. -/
theorem getByte_spliced_at (w off val : Nat) (hoff : off < 8) (hval : val < 2 ^ 8) :
    getByte ((w &&& complement64 (0xff <<< (8 * off))) ||| (val <<< (8 * off))) off
      = val := by
  apply Nat.eq_of_testBit_eq
  intro j
  rw [testBit_getByte, testBit_spliced w off val _ hoff hval]
  by_cases hj : j < 8
  · rw [if_pos (by omega : 8 * off ≤ 8 * off + j ∧ 8 * off + j < 8 * off + 8)]
    simp [hj, Nat.add_sub_cancel_left]
  · have hv : val.testBit j = false := testBit_of_lt_of_le hval (by omega)
    simp [hj, hv]

/-- After the splice, every byte of the containing word other than the
patched one is unchanged. -/
theorem getByte_spliced_ne (w off val k : Nat) (hoff : off < 8) (hval : val < 2 ^ 8)
    (hk : k < 8) (hne : k ≠ off) :
    getByte ((w &&& complement64 (0xff <<< (8 * off))) ||| (val <<< (8 * off))) k
      = getByte w k := by
  apply Nat.eq_of_testBit_eq
  intro j
  rw [testBit_getByte, testBit_getByte, testBit_spliced w off val _ hoff hval]
  by_cases hj : j < 8
  · rw [if_neg (by omega : ¬(8 * off ≤ 8 * k + j ∧ 8 * k + j < 8 * off + 8))]
    simp [hj, show 8 * k + j < 64 by omega]
  · simp [hj]

/-! ### Claim theorems -/

/-- C10: for every 64-bit address, `align_addr_to_word` returns the greatest
multiple of the 8-byte word size that is at most the address; hence the byte
offset `addr - aligned` computed in `write_byte` lies in `0..7` and every
shift amount `8 * byte_offset` is strictly below 64, so the mask-and-splice
word arithmetic has no shift overflow. -/
theorem align_addr_word_offset_bounds (addr : Nat) (h : addr < 2 ^ 64) :
    align_addr_to_word addr = 8 * (addr / 8) ∧
    align_addr_to_word addr % 8 = 0 ∧
    align_addr_to_word addr ≤ addr ∧
    addr < align_addr_to_word addr + 8 ∧
    addr - align_addr_to_word addr < 8 ∧
    8 * (addr - align_addr_to_word addr) < 64 := by
  have ha := align_eq_div_mul addr h
  refine ⟨ha, ?_, ?_, ?_, ?_, ?_⟩ <;> rw [ha] <;> omega

/-- Witness for C10 at the concrete unaligned address `0x1043`. -/
theorem align_addr_word_offset_bounds_witness :
    0x1043 < 2 ^ 64 ∧
    (align_addr_to_word 0x1043 = 8 * (0x1043 / 8) ∧
     align_addr_to_word 0x1043 % 8 = 0 ∧
     align_addr_to_word 0x1043 ≤ 0x1043 ∧
     0x1043 < align_addr_to_word 0x1043 + 8 ∧
     0x1043 - align_addr_to_word 0x1043 < 8 ∧
     8 * (0x1043 - align_addr_to_word 0x1043) < 64) :=
  ⟨by decide, align_addr_word_offset_bounds 0x1043 (by decide)⟩

/-- C2: for every address (aligned or not) and every byte value, `write_byte`
reads the containing aligned word, splices the value into the byte at offset
`addr - aligned`, writes the word back, and returns the original byte at that
offset; only that byte of the containing word changes, the other seven bytes
and every other word of memory are bit-identical to the pre-patch state. -/
theorem write_byte_splices_one_byte (i : Inferior) (addr val : Nat)
    (h1 : addr < 2 ^ 64) (h2 : val < 256) :
    ∃ i2,
      Inferior.write_byte (fun _ => true) i addr val
        = .ok (getByte (i.child.mem (align_addr_to_word addr))
                (addr - align_addr_to_word addr), i2) ∧
      getByte (i2.child.mem (align_addr_to_word addr))
          (addr - align_addr_to_word addr) = val ∧
      (∀ k, k < 8 → k ≠ addr - align_addr_to_word addr →
        getByte (i2.child.mem (align_addr_to_word addr)) k
          = getByte (i.child.mem (align_addr_to_word addr)) k) ∧
      (∀ a, a ≠ align_addr_to_word addr → i2.child.mem a = i.child.mem a) ∧
      i2.child.osStatus = i.child.osStatus := by
  have hoff : addr - align_addr_to_word addr < 8 := by
    rw [align_eq_div_mul addr h1]; omega
  have hval8 : val < 2 ^ 8 := by
    have h256 : (2 : Nat) ^ 8 = 256 := by norm_num
    omega
  refine ⟨_, rfl, ?_, ?_, ?_, rfl⟩
  · simpa using getByte_spliced_at (i.child.mem (align_addr_to_word addr))
      (addr - align_addr_to_word addr) val hoff hval8
  · intro k hk hne
    simpa using getByte_spliced_ne (i.child.mem (align_addr_to_word addr))
      (addr - align_addr_to_word addr) val k hoff hval8 hk hne
  · intro a ha
    simp [ha]

/-- Witness for C2: patching byte `0xcc` at the unaligned address `0x1043`
of a child whose memory words all hold `0x1122334455667788`. -/
theorem write_byte_splices_one_byte_witness :
    (0x1043 < 2 ^ 64 ∧ 0xcc < 256) ∧
    (∃ i2,
      Inferior.write_byte (fun _ => true) inf1 0x1043 0xcc
        = .ok (getByte (inf1.child.mem (align_addr_to_word 0x1043))
                (0x1043 - align_addr_to_word 0x1043), i2) ∧
      getByte (i2.child.mem (align_addr_to_word 0x1043))
          (0x1043 - align_addr_to_word 0x1043) = 0xcc ∧
      (∀ k, k < 8 → k ≠ 0x1043 - align_addr_to_word 0x1043 →
        getByte (i2.child.mem (align_addr_to_word 0x1043)) k
          = getByte (inf1.child.mem (align_addr_to_word 0x1043)) k) ∧
      (∀ a, a ≠ align_addr_to_word 0x1043 → i2.child.mem a = inf1.child.mem a) ∧
      i2.child.osStatus = inf1.child.osStatus) :=
  ⟨⟨by decide, by decide⟩,
    write_byte_splices_one_byte inf1 0x1043 0xcc (by decide) (by decide)⟩

/-- The session state after one successful `run` from the initial state:
the spawn succeeds, the initial wait and the resume both report a SIGTRAP
stop, every symbol lookup resolves. -/
def stAfterRun : DState :=
  (stepRun (some child0) (fun _ => true) wsTrap (.ok regs0) true wsTrap
    (.ok regs0) ddAll initState).1

/-- C1 (code bug): requesting `break *0x1040` before `run` does **not** leave
the trap opcode 0xcc at 0x1040 after `run` — the Break arm discards the
parsed address, so nothing is ever enqueued or patched: the byte at 0x1040
is still the original 0x00, not 0xcc (and `write_byte`'s returned original
byte is dropped by both patch loops, so no saved-byte table exists at all). -/
theorem break_before_run_installs_no_trap :
    ((stepRun (some child0) (fun _ => true) wsTrap (.ok regs0) true wsTrap
        (.ok regs0) ddAll (stepBreak initState "*0x1040").1).1).inferior.map
      (fun i => getByte (i.child.mem (align_addr_to_word 0x1040))
        (0x1040 - align_addr_to_word 0x1040)) = some 0 ∧
    (0 : Nat) ≠ 0xcc :=
  ⟨rfl, by decide⟩

/-- C3 (code bug): an instruction-pointer address the symbol resolver cannot
resolve makes the backtrace walk (and the stop-location report) abort via
`.expect("wrong addr")` — modelled as the `panicked` outcome with no frames —
instead of rendering a placeholder frame and continuing. -/
theorem backtrace_panics_on_unresolvable_address :
    print_backtrace ddNone (fun _ => some 0) (.ok regs0) 5
      = ([], .panicked "wrong addr") ∧
    reportStopLocation ddNone 0x1234 = .error "wrong addr" :=
  ⟨rfl, rfl⟩

/-- C4 (code bug): after `run` (child stopped at a trap) followed by `quit`,
the killed child is a zombie: `Inferior::kill` sends SIGKILL but never calls
`waitpid`, so the dead child is not reaped. -/
theorem quit_after_run_leaves_zombie :
    (stepQuit stAfterRun).inferior.map (fun i => i.child.osStatus)
      = some .zombie ∧
    ProcStatus.zombie ≠ ProcStatus.reaped :=
  ⟨rfl, by decide⟩

/-- C5 counterexample: when a previous `run` created a process and the next
`run`'s spawn fails, the session is **not** left Idle — the `inferior` field
still holds the (killed) previous process's handle. -/
theorem spawn_failure_after_prior_run_not_idle :
    ((stepRun none (fun _ => true) wsTrap (.ok regs0) true wsTrap (.ok regs0)
        ddAll stAfterRun).1).inferior.isSome = true :=
  rfl

/-- C5 amended: whenever spawning fails during `run`, the failure is reported
("Error starting subprocess"), no new or partial InferiorProcess is stored,
and the breakpoint vector is untouched; the `inferior` field keeps its prior
value — `none` (Idle) if no earlier run had succeeded, otherwise the stale
handle of the previously killed process. -/
theorem spawn_failure_retains_prior_inferior (writeOk : Nat → Bool)
    (iw : Except NixError WaitStatus) (ig : Except NixError Regs)
    (contOk : Bool) (wr : Except NixError WaitStatus)
    (gr : Except NixError Regs) (dd : DwarfData) (st : DState) :
    (stepRun none writeOk iw ig contOk wr gr dd st).1.inferior
      = (match st.inferior with
         | some i => some (Inferior.kill i)
         | none => none) ∧
    (stepRun none writeOk iw ig contOk wr gr dd st).1.breakpoints
      = st.breakpoints ∧
    (stepRun none writeOk iw ig contOk wr gr dd st).2.1
      = ["Error starting subprocess"] := by
  cases h : st.inferior <;> simp [stepRun, Inferior.new, h]

/-- C6: the breakpoint address syntax accepts a leading `*` followed by hex
digits with an optional case-insensitive `0x` prefix — `*0x1040` and `*1040`
both parse to 0x1040 — while `1040` (no `*`) and `*zz` (non-hex payload) are
rejected; and the Break arm never changes the session state. -/
theorem break_address_parsing :
    breakParse "*0x1040" = some 0x1040 ∧
    breakParse "*1040" = some 0x1040 ∧
    breakParse "1040" = none ∧
    breakParse "*zz" = none ∧
    ∀ (st : DState) (tok : String), (stepBreak st tok).1 = st := by
  refine ⟨by decide, by decide, by decide, by decide, ?_⟩
  intro st tok
  unfold stepBreak
  split <;> rfl

/-- C7: the `continue` command issued while no process is held reports
"No process running." and returns the session state unchanged, so repeating
it is an idempotent no-op. -/
theorem continue_no_process_noop (writeOk : Nat → Bool) (contOk : Bool)
    (wr : Except NixError WaitStatus) (gr : Except NixError Regs)
    (bps : List Nat) :
    stepContinue writeOk contOk wr gr { inferior := none, breakpoints := bps }
      = ({ inferior := none, breakpoints := bps }, ["No process running."]) :=
  rfl

/-- C8: `Inferior::wait` decodes the raw wait status exactly as claimed:
a normal exit maps to `Exited` with the exit code, a fatal signal maps to
`Signaled` with the signal, and a stop maps to `Stopped` with the signal and
the instruction pointer read from the child's registers. -/
theorem wait_decodes_wait_status (gr : Except NixError Regs) (pid : Nat)
    (code : Int) (sig : Signal) (coreDumped : Bool) (regs : Regs) :
    Inferior.wait (.ok (.exited pid code)) gr = .ok (.exited code) ∧
    Inferior.wait (.ok (.signaled pid sig coreDumped)) gr
      = .ok (.signaled sig) ∧
    Inferior.wait (.ok (.stopped pid sig)) (.ok regs)
      = .ok (.stopped sig regs.rip) :=
  ⟨rfl, rfl, rfl⟩

/-- C9 counterexample: a call to `Inferior::new` whose spawn fails returns
before the patch loop, leaving the pending-breakpoint vector untouched —
so "after every call to `Inferior::new` the vector is empty" is false. -/
theorem spawn_error_leaves_pending_vector :
    (Inferior.new none (fun _ => true) wsTrap (.ok regs0) [0x1040]).2
      = [0x1040] ∧
    ([0x1040] : List Nat) ≠ [] :=
  ⟨rfl, by decide⟩

/-- C9 amended: after every call to `Inferior::new` in which the spawn
succeeds (whatever the initial wait or any patch attempt does), and after
every call to `Inferior::continue_run` (even when `ptrace::cont` fails or a
patch attempt fails), the shared pending-breakpoint vector is empty. -/
theorem pending_vector_drained :
    (∀ (c : Child) (writeOk : Nat → Bool) (wr : Except NixError WaitStatus)
        (gr : Except NixError Regs) (bps : List Nat),
      (Inferior.new (some c) writeOk wr gr bps).2 = []) ∧
    (∀ (writeOk : Nat → Bool) (contOk : Bool) (wr : Except NixError WaitStatus)
        (gr : Except NixError Regs) (i : Inferior) (bps : List Nat),
      (Inferior.continue_run writeOk contOk wr gr i bps).2.1 = []) := by
  constructor
  · intro c writeOk wr gr bps
    cases hw : Inferior.wait wr gr <;> simp [Inferior.new, hw]
  · intro writeOk contOk wr gr i bps
    cases contOk <;> simp [Inferior.continue_run]

end Deet
